import Mathlib

/-!
Verification of the InvoiceTracker server against its specification.

The definitions below are a shallow embedding of the TypeScript source:

* `src/server/storage.ts` — the MongoDB storage layer (`MongoStorage`):
  invoice queries with filters, pagination, the amount reconciliation
  performed on every read path, header updates, analytics aggregation and
  invoice creation.  The MongoDB collection is modelled as a `List Invoice`
  in insertion order; `findOne` / `updateOne` / `findOneAndUpdate` act on
  the first document matching the query, exactly as MongoDB does.
* `src/server/routes.ts` — the HTTP layer: query-parameter handling
  (`parseInt(x) || default` truthiness), filter-bag assembly and the
  pagination envelope.
* the chat module (`queryInvoices` / `processUserMessage`): the regular
  expression intent extraction is modelled character by character with the
  JavaScript backtracking order for the concrete patterns used by the
  source, and the orchestration around the external model and storage
  calls is modelled with `Except`-valued oracles so that thrown and caught
  exceptions are explicit.

Monetary amounts are modelled as `Int`; the source compares and assigns
them with exact equality (`!==` / `=`), which is what the reconciliation
claims are about.  Timestamps (`new Date()`) are modelled as an explicit
`now : Nat` parameter, and `new Date().getFullYear()` as a `year : Nat`
parameter.  `Date#toISOString` is modelled at UTC offset zero.
-/

/-! ## Data model (shared schema) -/

/-- One invoice line item (`invoice_lines` entries of the shared schema). -/
structure InvoiceLine where
  line_number : Nat
  line_type : String
  description : String
  quantity : Int
  unit_price : Int
  line_amount : Int
deriving DecidableEq

/-- The invoice header of the shared schema. -/
structure InvoiceHeader where
  organization_code : String
  invoice_num : String
  invoice_date : String
  vendor_name : String
  vendor_site_code : String
  invoice_amount : Int
  currency_code : String
  payment_term : String
  invoice_type : String
deriving DecidableEq

/-- An invoice document as stored in the `invoices` collection. -/
structure Invoice where
  invoice_header : InvoiceHeader
  invoice_lines : List InvoiceLine
  userId : Option String := none
  source : Option String := none
  createdAt : Option Nat := none
  updatedAt : Option Nat := none
deriving DecidableEq

/-- Invoice number of a document (`invoice_header.invoice_num`). -/
def inum (inv : Invoice) : String := inv.invoice_header.invoice_num

/-- Sum of the line amounts, as computed by the reduce in
`storage.ts` (`invoice_lines.reduce((sum, line) => sum + line.line_amount, 0)`). -/
def lineSum (inv : Invoice) : Int :=
  inv.invoice_lines.foldl (fun s l => s + l.line_amount) 0

/-- Replace the stored header amount, as the `$set` of
`invoice_header.invoice_amount` does. -/
def setAmount (inv : Invoice) (a : Int) : Invoice :=
  { inv with invoice_header := { inv.invoice_header with invoice_amount := a } }

/-- The correction applied by the reconciliation passes: an invoice whose
header amount disagrees with its line total gets the line total; a
consistent invoice is left alone. -/
def reconcileInv (inv : Invoice) : Invoice :=
  if inv.invoice_header.invoice_amount = lineSum inv then inv
  else setAmount inv (lineSum inv)

/-! ## Filter bag and Mongo queries (`storage.ts` lines 140-168, 273-289) -/

/-- The loosely typed filter bag handed to the storage layer.  A `none`
field is an absent property; `some ""` is an empty string (falsy in the
JavaScript guards). -/
structure Filters where
  vendor : Option String := none
  currency : Option String := none
  invoiceType : Option String := none
  search : Option String := none
  startDate : Option String := none
  endDate : Option String := none
deriving DecidableEq

/-- The Mongo query document built by the storage layer. -/
structure MongoQuery where
  vendor_name : Option String := none
  currency_code : Option String := none
  invoice_type : Option String := none
  dateRange : Option (String × String) := none
  searchOr : Option String := none
deriving DecidableEq

/-- Guard used by every filter branch: `filters.x && filters.x !== ""`. -/
def jsPresent (s : Option String) : Option String :=
  match s with
  | some v => if v = "" then none else some v
  | none => none

/-- Query built by `MongoStorage.getInvoices` (storage.ts 140-168): vendor,
currency and invoiceType exact matches, a date range only when both bounds
are truthy, and the free-text `$or` search. -/
def buildInvoicesQuery (f : Filters) : MongoQuery :=
  { vendor_name := jsPresent f.vendor
    currency_code := jsPresent f.currency
    invoice_type := jsPresent f.invoiceType
    dateRange :=
      match jsPresent f.startDate, jsPresent f.endDate with
      | some s, some e => some (s, e)
      | _, _ => none
    searchOr := jsPresent f.search }

/-- Query built by `MongoStorage.getUserInvoices` (storage.ts 391-417);
the field-by-field construction is the same as in `getInvoices` (the user
id constraint is added separately, see `matchesUserQuery`). -/
def buildUserInvoicesQuery (f : Filters) : MongoQuery :=
  { vendor_name := jsPresent f.vendor
    currency_code := jsPresent f.currency
    invoice_type := jsPresent f.invoiceType
    dateRange :=
      match jsPresent f.startDate, jsPresent f.endDate with
      | some s, some e => some (s, e)
      | _, _ => none
    searchOr := jsPresent f.search }

/-- Query built by `MongoStorage.getAnalyticsSummary` (storage.ts
273-289): only vendor, currency and the two-sided date range; no
invoiceType and no search branch exist there. -/
def buildAnalyticsQuery (f : Filters) : MongoQuery :=
  { vendor_name := jsPresent f.vendor
    currency_code := jsPresent f.currency
    invoice_type := none
    dateRange :=
      match jsPresent f.startDate, jsPresent f.endDate with
      | some s, some e => some (s, e)
      | _, _ => none
    searchOr := none }

/-! ### Query semantics -/

/-- Lexicographic strict order on character lists (BSON string
comparison restricted to the ASCII dates used here). -/
def ltList : List Char → List Char → Bool
  | [], [] => false
  | [], _ :: _ => true
  | _ :: _, [] => false
  | a :: as, b :: bs => if a < b then true else if b < a then false else ltList as bs

/-- Strict string order used for `$gte`/`$lte` and the date sort. -/
def strLtB (x y : String) : Bool := ltList x.toList y.toList

/-- Non-strict string order: `x ≤ y` iff not `y < x`. -/
def strLeB (x y : String) : Bool := !strLtB y x

/-- Substring test on character lists. -/
def containsSeq (needle : List Char) : List Char → Bool
  | [] => needle.isEmpty
  | c :: t => needle.isPrefixOf (c :: t) || containsSeq needle t

/-- Case-insensitive substring test, the semantics of the `$regex`
search with `$options: "i"` for a metacharacter-free pattern. -/
def containsCI (hay needle : String) : Bool :=
  containsSeq (needle.toList.map Char.toLower) (hay.toList.map Char.toLower)

/-- Whether an invoice document matches a Mongo query document. -/
def matchesQuery (q : MongoQuery) (inv : Invoice) : Bool :=
  (match q.vendor_name with
   | some v => inv.invoice_header.vendor_name = v
   | none => true) &&
  (match q.currency_code with
   | some c => inv.invoice_header.currency_code = c
   | none => true) &&
  (match q.invoice_type with
   | some t => inv.invoice_header.invoice_type = t
   | none => true) &&
  (match q.dateRange with
   | some (s, e) =>
       strLeB s inv.invoice_header.invoice_date &&
       strLeB inv.invoice_header.invoice_date e
   | none => true) &&
  (match q.searchOr with
   | some s =>
       containsCI inv.invoice_header.invoice_num s ||
       containsCI inv.invoice_header.vendor_name s
   | none => true)

/-- The `getUserInvoices` query additionally requires `userId` equality. -/
def matchesUserQuery (uid : String) (q : MongoQuery) (inv : Invoice) : Bool :=
  inv.userId = some uid && matchesQuery q inv

/-! ### Collection primitives (Mongo semantics) -/

/-- `collection.findOne({"invoice_header.invoice_num": num})`: the first
document with that invoice number. -/
def findOne (store : List Invoice) (num : String) : Option Invoice :=
  match store with
  | [] => none
  | inv :: rest =>
    if inv.invoice_header.invoice_num = num then some inv else findOne rest num

/-- `collection.updateOne({"invoice_header.invoice_num": num}, {$set:
{"invoice_header.invoice_amount": a}})`: patch the amount of the first
document with that invoice number. -/
def updateOneAmount (store : List Invoice) (num : String) (a : Int) : List Invoice :=
  match store with
  | [] => []
  | inv :: rest =>
    if inv.invoice_header.invoice_num = num then setAmount inv a :: rest
    else inv :: updateOneAmount rest num a

/-- `collection.findOneAndUpdate({..num..}, {$set: ...})` on the first
matching document, with an arbitrary document transformer. -/
def updateFirstByNum (store : List Invoice) (num : String) (f : Invoice → Invoice) :
    List Invoice :=
  match store with
  | [] => []
  | inv :: rest =>
    if inv.invoice_header.invoice_num = num then f inv :: rest
    else inv :: updateFirstByNum rest num f

/-! ### Sorting (`.sort({"invoice_header.invoice_date": -1})`) -/

/-- Stable insertion of an invoice into a list sorted by descending
invoice date. -/
def insertDateDesc (inv : Invoice) : List Invoice → List Invoice
  | [] => [inv]
  | x :: xs =>
    if strLtB x.invoice_header.invoice_date inv.invoice_header.invoice_date then
      inv :: x :: xs
    else x :: insertDateDesc inv xs

/-- Sort by descending invoice date (the cursor sort used by the list
queries). -/
def sortByDateDesc : List Invoice → List Invoice
  | [] => []
  | x :: xs => insertDateDesc x (sortByDateDesc xs)

/-! ### Reconciliation loop (storage.ts 183-201, 295-310, 432-450)

The `for (const invoice of invoices)` loops all have the same body:
recompute the line total and, when the stored amount differs, issue an
`updateOne` keyed by the invoice number and fix the in-memory copy.  The
loop threads the storage state and produces the corrected result list. -/

/-- The read-path reconciliation loop.  First component: storage after the
corrective writes; second component: the invoice list as returned to the
caller. -/
def reconcileLoop (store : List Invoice) : List Invoice → List Invoice × List Invoice
  | [] => (store, [])
  | inv :: rest =>
    if inv.invoice_header.invoice_amount = lineSum inv then
      let r := reconcileLoop store rest
      (r.1, inv :: r.2)
    else
      let r := reconcileLoop (updateOneAmount store (inum inv) (lineSum inv)) rest
      (r.1, setAmount inv (lineSum inv) :: r.2)

/-! ### Paginated list queries (storage.ts `getInvoices`, `getUserInvoices`) -/

/-- Result of a list query: page of invoices, matching count, and the
storage state after the reconciliation writes. -/
structure InvoicesResult where
  invoices : List Invoice
  total : Nat
  store : List Invoice
deriving DecidableEq

/-- Documents matching a predicate, in collection order
(`countDocuments(query)` counts exactly these). -/
def matchedOf (store : List Invoice) (pred : Invoice → Bool) : List Invoice :=
  store.filter pred

/-- The page produced by `.sort(date desc).skip((page-1)*limit)
.limit(limit)`.  MongoDB treats `limit(0)` as "no limit". -/
def pagedOf (store : List Invoice) (pred : Invoice → Bool) (page limit : Nat) :
    List Invoice :=
  let afterSkip := (sortByDateDesc (matchedOf store pred)).drop ((page - 1) * limit)
  if limit = 0 then afterSkip else afterSkip.take limit

/-- Common body of `getInvoices` and `getUserInvoices`: count, paginate,
then run the reconciliation loop over the returned page. -/
def findReconcilePaged (store : List Invoice) (pred : Invoice → Bool)
    (page limit : Nat) : InvoicesResult :=
  let r := reconcileLoop store (pagedOf store pred page limit)
  { invoices := r.2, total := (matchedOf store pred).length, store := r.1 }

/-- `MongoStorage.getInvoices(page, limit, filters)` (storage.ts 136-204). -/
def getInvoices (store : List Invoice) (page limit : Nat) (f : Filters) :
    InvoicesResult :=
  findReconcilePaged store (matchesQuery (buildInvoicesQuery f)) page limit

/-- `MongoStorage.getUserInvoices(userId, page, limit, filters)`
(storage.ts 384-453). -/
def getUserInvoices (store : List Invoice) (uid : String) (page limit : Nat)
    (f : Filters) : InvoicesResult :=
  findReconcilePaged store (matchesUserQuery uid (buildUserInvoicesQuery f)) page limit

/-- `MongoStorage.getInvoiceByNumber(invoiceNum)` (storage.ts 206-232):
`findOne`, then the same conditional reconcile-and-persist. -/
def getInvoiceByNumber (store : List Invoice) (num : String) :
    Option Invoice × List Invoice :=
  match findOne store num with
  | none => (none, store)
  | some inv =>
    if inv.invoice_header.invoice_amount = lineSum inv then (some inv, store)
    else (some (setAmount inv (lineSum inv)), updateOneAmount store num (lineSum inv))

/-! ### Header update (storage.ts 234-267) -/

/-- Partial header update payload (`Partial<InvoiceHeader>` after route
validation).  The invoice number is the lookup key of the route and is not
part of the patch. -/
structure HeaderPatch where
  organization_code : Option String := none
  invoice_date : Option String := none
  vendor_name : Option String := none
  vendor_site_code : Option String := none
  invoice_amount : Option Int := none
  currency_code : Option String := none
  payment_term : Option String := none
  invoice_type : Option String := none
deriving DecidableEq

/-- The `$set` document of `updateInvoiceHeader`: every provided patch
field, and then unconditionally `invoice_header.invoice_amount := total`
(storage.ts 252-258), so a caller-supplied amount is overridden. -/
def applyHeaderUpdate (inv : Invoice) (p : HeaderPatch) (total : Int) : Invoice :=
  { inv with invoice_header :=
    { organization_code := p.organization_code.getD inv.invoice_header.organization_code
      invoice_num := inv.invoice_header.invoice_num
      invoice_date := p.invoice_date.getD inv.invoice_header.invoice_date
      vendor_name := p.vendor_name.getD inv.invoice_header.vendor_name
      vendor_site_code := p.vendor_site_code.getD inv.invoice_header.vendor_site_code
      invoice_amount := total
      currency_code := p.currency_code.getD inv.invoice_header.currency_code
      payment_term := p.payment_term.getD inv.invoice_header.payment_term
      invoice_type := p.invoice_type.getD inv.invoice_header.invoice_type } }

/-- `MongoStorage.updateInvoiceHeader(invoiceNum, data)`: fetch the
current invoice, compute the line total from its current line items, and
`findOneAndUpdate` with the patch plus the recomputed amount; `null` for
an unknown invoice number. -/
def updateInvoiceHeader (store : List Invoice) (num : String) (p : HeaderPatch) :
    Option Invoice × List Invoice :=
  match findOne store num with
  | none => (none, store)
  | some current =>
    let total := lineSum current
    (some (applyHeaderUpdate current p total),
     updateFirstByNum store num (fun inv => applyHeaderUpdate inv p total))

/-! ### Analytics summary (storage.ts 269-368) -/

/-- The derived `InvoiceSummary` shape. -/
structure InvoiceSummary where
  total_invoices : Nat
  total_amount : Int
  invoice_types : List (String × Nat × Int)
  monthly_totals : List (String × Int)
deriving DecidableEq

/-- `$group` by invoice type accumulating count and summed amount, in
first-appearance order. -/
def addTypeEntry (k : String) (a : Int) :
    List (String × Nat × Int) → List (String × Nat × Int)
  | [] => [(k, 1, a)]
  | (k', c, s) :: rest =>
    if k' = k then (k', c + 1, s + a) :: rest else (k', c, s) :: addTypeEntry k a rest

/-- `$group` by month key accumulating summed amount. -/
def addMonthEntry (k : String) (a : Int) :
    List (String × Int) → List (String × Int)
  | [] => [(k, a)]
  | (k', s) :: rest =>
    if k' = k then (k', s + a) :: rest else (k', s) :: addMonthEntry k a rest

/-- Stable insertion sort by descending count (`$sort: {count: -1}`). -/
def insertCountDesc (e : String × Nat × Int) :
    List (String × Nat × Int) → List (String × Nat × Int)
  | [] => [e]
  | x :: xs => if x.2.1 < e.2.1 then e :: x :: xs else x :: insertCountDesc e xs

/-- Sort the type breakdown by descending count. -/
def sortCountDesc : List (String × Nat × Int) → List (String × Nat × Int)
  | [] => []
  | x :: xs => insertCountDesc x (sortCountDesc xs)

/-- Stable insertion sort of month rows by ascending key (`$sort: {_id: 1}`). -/
def insertMonthAsc (e : String × Int) : List (String × Int) → List (String × Int)
  | [] => [e]
  | x :: xs => if strLtB e.1 x.1 then e :: x :: xs else x :: insertMonthAsc e xs

/-- Sort the monthly totals ascending by `YYYY-MM` key. -/
def sortMonthAsc : List (String × Int) → List (String × Int)
  | [] => []
  | x :: xs => insertMonthAsc x (sortMonthAsc xs)

/-- `MongoStorage.getAnalyticsSummary(filters)` (storage.ts 269-368):
fetch every matching invoice, run the reconciliation loop over all of
them, then compute the count and the three aggregation pipelines against
the post-reconciliation storage with the same query.  Returns the summary
and the storage state after the corrective writes. -/
def getAnalyticsSummary (store : List Invoice) (f : Filters) :
    InvoiceSummary × List Invoice :=
  let pred := matchesQuery (buildAnalyticsQuery f)
  let allInvoices := store.filter pred
  let store2 := (reconcileLoop store allInvoices).1
  let matched2 := store2.filter pred
  let total_invoices := matched2.length
  let total_amount := (matched2.map (fun i => i.invoice_header.invoice_amount)).sum
  let invoice_types := sortCountDesc (matched2.foldl
    (fun acc i => addTypeEntry i.invoice_header.invoice_type
      i.invoice_header.invoice_amount acc) [])
  let monthly_totals := sortMonthAsc (matched2.foldl
    (fun acc i => addMonthEntry (i.invoice_header.invoice_date.take 7)
      i.invoice_header.invoice_amount acc) [])
  (⟨total_invoices, total_amount, invoice_types, monthly_totals⟩, store2)

/-! ### Vendor list and invoice creation -/

/-- Stable insertion sort of strings ascending. -/
def insertStrAsc (s : String) : List String → List String
  | [] => [s]
  | x :: xs => if strLtB s x then s :: x :: xs else x :: insertStrAsc s xs

/-- Sort strings ascending. -/
def sortStrAsc : List String → List String
  | [] => []
  | x :: xs => insertStrAsc x (sortStrAsc xs)

/-- `MongoStorage.getVendorList()` (storage.ts 370-381): distinct vendor
names, sorted ascending. -/
def getVendorList (store : List Invoice) : List String :=
  sortStrAsc ((store.map (fun i => i.invoice_header.vendor_name)).eraseDups)

/-- `MongoStorage.createInvoice(invoice)` (storage.ts 455-478): fill in
missing timestamps, force the header amount to the line total, and
`insertOne` (append to the collection). -/
def createInvoice (store : List Invoice) (inv : Invoice) (now : Nat) :
    Invoice × List Invoice :=
  let inv1 := { inv with
    createdAt := some (inv.createdAt.getD now)
    updatedAt := some (inv.updatedAt.getD now) }
  let inv2 := setAmount inv1 (lineSum inv1)
  (inv2, store ++ [inv2])

/-! ## HTTP route layer (`routes.ts`) -/

/-- `parseInt(param) || d`: an absent or non-numeric parameter parses to
`NaN` (modelled `none`) and falls back to the default, and so does a
parsed `0`, because `0` is falsy in JavaScript.  Parameters are modelled
as the (nonnegative) integers `parseInt` produced. -/
def jsOrDefault (v : Option Nat) (d : Nat) : Nat :=
  match v with
  | some n => if n = 0 then d else n
  | none => d

/-- Filter assembly of the list/analytics/export routes: a query
parameter is copied into the filter bag only when truthy, and the date
pair only when both are truthy (routes.ts 26-34). -/
def routeFilters (vendor currency invoiceType search startDate endDate :
    Option String) : Filters :=
  let base : Filters :=
    { vendor := jsPresent vendor, currency := jsPresent currency
      invoiceType := jsPresent invoiceType, search := jsPresent search }
  match jsPresent startDate, jsPresent endDate with
  | some s, some e => { base with startDate := some s, endDate := some e }
  | _, _ => base

/-- The pagination envelope of the list responses. -/
structure Pagination where
  total : Nat
  page : Nat
  limit : Nat
  totalPages : Nat
deriving DecidableEq

/-- A list response together with the storage state after the request. -/
structure ListResponse where
  invoices : List Invoice
  pagination : Pagination
  store : List Invoice
deriving DecidableEq

/-- `Math.ceil(total / limit)` for a positive `limit`. -/
def ceilDiv (total limit : Nat) : Nat := (total + limit - 1) / limit

/-- `GET /api/invoices` (routes.ts 18-51): default page 1 and limit 10 via
`parseInt(..) || d`, storage query, then the pagination envelope with
`totalPages = Math.ceil(total / limit)`. -/
def routeGetInvoices (store : List Invoice) (pageParam limitParam : Option Nat)
    (f : Filters) : ListResponse :=
  let page := jsOrDefault pageParam 1
  let limit := jsOrDefault limitParam 10
  let r := getInvoices store page limit f
  { invoices := r.invoices
    pagination := { total := r.total, page := page, limit := limit
                    totalPages := ceilDiv r.total limit }
    store := r.store }

/-- Response of `PUT /api/invoices/:invoice_num`. -/
inductive PutResponse where
  | ok (inv : Invoice)
  | notFound
deriving DecidableEq

/-- `PUT /api/invoices/:invoice_num` (routes.ts 71-92) after schema
validation: storage update, 404 when the storage layer returns null. -/
def routePutInvoice (store : List Invoice) (num : String) (p : HeaderPatch) :
    PutResponse × List Invoice :=
  match updateInvoiceHeader store num p with
  | (none, st) => (.notFound, st)
  | (some inv, st) => (.ok inv, st)

/-- `POST /api/invoices/user` (routes.ts 166-205) after schema validation:
the body is spread and `userId`, `source: "manual"` and both timestamps
are set before `createInvoice` is called. -/
def routeCreateUserInvoice (store : List Invoice) (body : Invoice) (uid : String)
    (now : Nat) : Invoice × List Invoice :=
  createInvoice store
    { body with
      userId := some uid
      source := some "manual"
      createdAt := some now
      updatedAt := some now } now

/-- `GET /api/export/invoices`: the export route fetches all matching
invoices with `storage.getInvoices(1, 0, filters)` — page 1, limit 0. -/
def exportInvoices (store : List Invoice) (f : Filters) : InvoicesResult :=
  getInvoices store 1 0 f

/-! ## Chat module: query intent extraction

The chat module extracts filters from the user message with JavaScript
regular expressions.  The concrete patterns of the source are modelled
directly on character lists with the leftmost-match scan and the greedy
backtracking order of the JavaScript engine. -/

/-- JavaScript `\w` (ASCII word character). -/
def isWordChar (c : Char) : Bool := c.isAlpha || c.isDigit || c = '_'

/-- JavaScript `\s` restricted to ASCII whitespace. -/
def isJsSpace (c : Char) : Bool :=
  c = ' ' || c = '\t' || c = '\n' || c = '\r' || c = '\x0b' || c = '\x0c'

/-- Strip a literal pattern case-insensitively; `none` if it does not
match at this position. -/
def stripCI : List Char → List Char → Option (List Char)
  | [], cs => some cs
  | _ :: _, [] => none
  | p :: ps, c :: cs => if p.toLower = c.toLower then stripCI ps cs else none

/-- `\s+`: require at least one whitespace character and consume the
maximal run (nothing after it in the patterns below can match
whitespace, so the greedy run is the only viable one). -/
def wsRun1 (cs : List Char) : Option (List Char) :=
  let ws := cs.takeWhile isJsSpace
  if ws.isEmpty then none else some (cs.dropWhile isJsSpace)

/-- Leftmost match: try the position matcher at every suffix, left to
right (exactly the scan of an unanchored JavaScript regex). -/
def scanFirst (f : List Char → Option (List Char)) : List Char → Option (List Char)
  | [] => f []
  | c :: cs =>
    match f (c :: cs) with
    | some r => some r
    | none => scanFirst f cs

/-- Maximal digit run. -/
def takeDigits (cs : List Char) : List Char := cs.takeWhile Char.isDigit

/-- Tail `(\w+-?\d+)` of the invoice-number patterns at one position, in
the JavaScript backtracking order: `\w+` from the greedy maximum down,
`-?` preferring the dash, `\d+` greedy with at least one digit.  `k` is
the `\w+` length currently tried. -/
def matchNumTail : Nat → List Char → Option (List Char)
  | 0, _ => none
  | k + 1, cs =>
    let pre := cs.take (k + 1)
    let rest := cs.drop (k + 1)
    let withDash : Option (List Char) :=
      match rest with
      | '-' :: r2 =>
        let ds := takeDigits r2
        if ds.isEmpty then none else some (pre ++ '-' :: ds)
      | _ => none
    match withDash with
    | some r => some r
    | none =>
      let ds := takeDigits rest
      if ds.isEmpty then matchNumTail k cs else some (pre ++ ds)

/-- One position of `/lit\s+#?(\w+-?\d+)/i`: the literal, whitespace, an
optional `#` (deterministic: `#` is not a word character, so the branch
without it cannot start `\w+`), then the captured tail. -/
def matchNumAt (lit : List Char) (cs : List Char) : Option (List Char) := do
  let r1 ← stripCI lit cs
  let r2 ← wsRun1 r1
  let r3 := match r2 with
    | '#' :: t => t
    | _ => r2
  matchNumTail (r3.takeWhile isWordChar).length r3

/-- `userQuery.match(/invoice\s+#?(\w+-?\d+)/i) ||
userQuery.match(/number\s+#?(\w+-?\d+)/i)` — the captured invoice number,
if any (chat module lines 89-97). -/
def extractInvoiceNum (q : String) : Option String :=
  match scanFirst (matchNumAt "invoice".toList) q.toList with
  | some r => some (String.mk r)
  | none =>
    match scanFirst (matchNumAt "number".toList) q.toList with
    | some r => some (String.mk r)
    | none => none

/-- One position of `/lit\s+(\w+)/i`: literal, whitespace, captured
maximal word run of length at least one. -/
def matchWordAfter (lit : List Char) (cs : List Char) : Option (List Char) := do
  let r1 ← stripCI lit cs
  let r2 ← wsRun1 r1
  let w := r2.takeWhile isWordChar
  if w.isEmpty then none else some w

/-- `match(/vendor\s+(\w+)/i) || match(/from\s+(\w+)/i) ||
match(/by\s+(\w+)/i)` — the captured vendor word (chat module 50-52). -/
def extractVendor (q : String) : Option String :=
  match scanFirst (matchWordAfter "vendor".toList) q.toList with
  | some r => some (String.mk r)
  | none =>
    match scanFirst (matchWordAfter "from".toList) q.toList with
    | some r => some (String.mk r)
    | none =>
      match scanFirst (matchWordAfter "by".toList) q.toList with
      | some r => some (String.mk r)
      | none => none

/-- The twelve month names, lowercase, in the order of the source. -/
def monthNames : List String :=
  ["january", "february", "march", "april", "may", "june",
   "july", "august", "september", "october", "november", "december"]

/-- First month alternative matching case-insensitively at this position,
capturing the original text. -/
def pickMonth (cs : List Char) : List String → Option (List Char)
  | [] => none
  | m :: ms =>
    if (stripCI m.toList cs).isSome then some (cs.take m.length)
    else pickMonth cs ms

/-- One position of `/in\s+(january|february|...|december)/i`. -/
def matchMonthAt (cs : List Char) : Option (List Char) := do
  let r1 ← stripCI ['i', 'n'] cs
  let r2 ← wsRun1 r1
  pickMonth r2 monthNames

/-- The captured month name of the chat query, if any (chat module 59). -/
def extractMonth (q : String) : Option (List Char) :=
  scanFirst matchMonthAt q.toList

/-- `monthNames.findIndex(m => m.toLowerCase() === cap.toLowerCase())`. -/
def monthIndexOf (cap : List Char) : Option Nat :=
  monthNames.findIdx? (fun m => m.toList = cap.map Char.toLower)

/-- One position of `/(standard|credit|prepayment)\s+invoices/i`. -/
def matchTypeWordAt (cs : List Char) : Option (List Char) :=
  let tryAlt := fun (alt : String) =>
    match stripCI alt.toList cs with
    | none => none
    | some r1 =>
      match wsRun1 r1 with
      | none => none
      | some r2 =>
        match stripCI "invoices".toList r2 with
        | none => none
        | some _ => some (cs.take alt.length)
  match tryAlt "standard" with
  | some r => some r
  | none =>
    match tryAlt "credit" with
    | some r => some r
    | none => tryAlt "prepayment"

/-- `match(/type\s+(\w+)/i) ||
match(/(standard|credit|prepayment)\s+invoices/i)` (chat module 82-83). -/
def extractType (q : String) : Option (List Char) :=
  match scanFirst (matchWordAfter "type".toList) q.toList with
  | some r => some r
  | none => scanFirst matchTypeWordAt q.toList

/-- `charAt(0).toUpperCase() + slice(1).toLowerCase()`. -/
def titleCase (cap : List Char) : String :=
  match cap with
  | [] => ""
  | c :: t => String.mk (c.toUpper :: t.map Char.toLower)

/-- Leap-year rule of the Gregorian calendar (as implemented by
JavaScript `Date`). -/
def isLeapYear (y : Nat) : Bool := (y % 4 = 0 && y % 100 ≠ 0) || y % 400 = 0

/-- Number of days of month `m` (1-12) of year `y`; `new Date(year,
monthIndex + 1, 0).getDate()`. -/
def daysInMonth (y m : Nat) : Nat :=
  if m = 2 then (if isLeapYear y then 29 else 28)
  else if m = 4 || m = 6 || m = 9 || m = 11 then 30 else 31

/-- Two-digit zero padding. -/
def pad2 (n : Nat) : String := if n < 10 then "0" ++ toString n else toString n

/-- `new Date(y, m-1, d).toISOString().split("T")[0]`, modelled at UTC
offset zero (on a server in another timezone the ISO date can be the
previous calendar day). -/
def isoDate (y m d : Nat) : String :=
  toString y ++ "-" ++ pad2 m ++ "-" ++ pad2 d

/-- The filter bag built by `queryInvoices` from the user message (chat
module 47-87): vendor word, month mapped to the first/last day of that
month of the current year, and normalized invoice type. -/
def chatFilters (q : String) (year : Nat) : Filters :=
  let f0 : Filters := {}
  let f1 := match extractVendor q with
    | some v => { f0 with vendor := some v }
    | none => f0
  let f2 := match extractMonth q with
    | some cap =>
      match monthIndexOf cap with
      | some i =>
        { f1 with startDate := some (isoDate year (i + 1) 1)
                  endDate := some (isoDate year (i + 1) (daysInMonth year (i + 1))) }
      | none => f1
    | none => f1
  match extractType q with
  | some cap => { f2 with invoiceType := some (titleCase cap) }
  | none => f2

/-! ## Chat module: orchestration (`processUserMessage`)

The storage calls and the external model call are asynchronous and can
reject; they are modelled as `Except`-valued oracles carried by a
`ChatEnv`.  `queryInvoices` catches a failure of the filtered list query
and returns the empty list (chat module 99-107); a failure of the direct
invoice-number lookup propagates to the caller.  `processUserMessage`
catches every propagated error and returns the apology answer with no
invoice list (chat module 206-211). -/

/-- External-call oracles of one chat request. -/
structure ChatEnv where
  year : Nat
  listResult : Filters → Except Unit (List Invoice)
  lookupResult : String → Except Unit (Option Invoice)
  summaryResult : Except Unit InvoiceSummary
  vendorsResult : Except Unit (List String)
  modelResult : String → Except Unit String

/-- `queryInvoices(userQuery)`: build the filters, short-circuit to the
invoice-number lookup when one was extracted, otherwise run the filtered
list query and swallow its errors into the empty list. -/
def queryInvoicesE (env : ChatEnv) (q : String) : Except Unit (List Invoice) :=
  let filters := chatFilters q env.year
  match extractInvoiceNum q with
  | some num =>
    match env.lookupResult num with
    | .error e => .error e
    | .ok (some inv) => .ok [inv]
    | .ok none => .ok []
  | none =>
    match env.listResult filters with
    | .ok invs => .ok invs
    | .error _ => .ok []

/-- Fallback system context returned when gathering the summary or the
vendor list fails (`generateSystemContext` has its own catch). -/
def fallbackContext : String :=
  "You are an AI assistant specializing in invoice data analysis.\n" ++
  "You can help users find invoices, analyze invoice data, and answer questions about specific invoices.\n"

/-- System context built from the analytics summary and the vendor list
(prompt prose abbreviated; only the embedded data matters here). -/
def fullContext (s : InvoiceSummary) (vendors : List String) : String :=
  "You are an AI assistant specializing in invoice data analysis.\n" ++
  "Total invoices in the system: " ++ toString s.total_invoices ++ "\n" ++
  "Total invoice amount across all invoices: " ++ toString s.total_amount ++ "\n" ++
  "Available vendors: " ++ String.intercalate ", " vendors ++ "\n"

/-- `generateSystemContext()`: the full context, or the fallback when
either storage call fails — never a propagated error. -/
def systemContextOf (env : ChatEnv) : String :=
  match env.summaryResult with
  | .error _ => fallbackContext
  | .ok s =>
    match env.vendorsResult with
    | .error _ => fallbackContext
    | .ok vs => fullContext s vs

/-- One invoice summary block of the prompt context. -/
def invoiceSummaryLine (idx : Nat) (inv : Invoice) : String :=
  "Invoice " ++ toString (idx + 1) ++ ":\n" ++
  "- Invoice Number: " ++ inv.invoice_header.invoice_num ++ "\n" ++
  "- Date: " ++ inv.invoice_header.invoice_date ++ "\n" ++
  "- Vendor: " ++ inv.invoice_header.vendor_name ++ "\n" ++
  "- Amount: " ++ toString inv.invoice_header.invoice_amount ++ " " ++
    inv.invoice_header.currency_code ++ "\n" ++
  "- Type: " ++ inv.invoice_header.invoice_type ++ "\n" ++
  (if inv.invoice_lines.length > 0 then
    "- Line Items: " ++ toString inv.invoice_lines.length ++ "\n" else "") ++ "\n"

/-- The invoice context of the prompt: at most the first five invoices
are rendered (`relevantInvoices.slice(0, 5)`), with the total count and a
note about how many more exist (chat module 122-151). -/
def invoiceContextOf (invs : List Invoice) : String :=
  if invs.length > 0 then
    "Based on the user query, I found " ++ toString invs.length ++
      " relevant invoices:\n\n" ++
    String.join ((invs.take 5).enum.map (fun p => invoiceSummaryLine p.1 p.2)) ++
    (if invs.length > 5 then
      "Note: There are " ++ toString (invs.length - 5) ++
        " more matching invoices not shown here.\n\n"
     else "")
  else "I could not find any invoices matching the user query.\n\n"

/-- The outbound prompt: system context, invoice context, and the raw
user message. -/
def promptOf (env : ChatEnv) (invs : List Invoice) (msg : String) : String :=
  systemContextOf env ++ "\n\n" ++ invoiceContextOf invs ++
  "\n\nUser query: \"" ++ msg ++ "\"\n\n" ++
  "Answer the user query based on the invoice data provided. Be concise and accurate.\n"

/-- The result shape of `processUserMessage`: the answer text and the
optional `invoices` field (absent in the error path). -/
structure ChatResponse where
  answer : String
  invoices : Option (List Invoice)
deriving DecidableEq

/-- The fixed apology of the catch-all error path. -/
def apologyAnswer : String :=
  "Sorry, I encountered an error processing your question. Please try again or rephrase your question."

/-- `processUserMessage(userMessage)` (chat module 111-212): query the
relevant invoices, build the prompt, call the model, and return the
answer with the full (unclipped) invoice list; any propagated error
yields the apology with no invoices. -/
def processUserMessage (env : ChatEnv) (msg : String) : ChatResponse :=
  match queryInvoicesE env msg with
  | .error _ => ⟨apologyAnswer, none⟩
  | .ok invs =>
    match env.modelResult (promptOf env invs msg) with
    | .error _ => ⟨apologyAnswer, none⟩
    | .ok ans => ⟨ans, some invs⟩

/-- A `ChatEnv` whose storage oracles are the pure storage model over a
fixed collection (no storage failures), with the read-path reconciliation
writes of each call discarded — sufficient for the extraction claims,
which only concern which invoices are returned. -/
def pureChatEnv (store : List Invoice) (year : Nat)
    (model : String → Except Unit String) : ChatEnv :=
  { year := year
    listResult := fun f => .ok (getInvoices store 1 0 f).invoices
    lookupResult := fun n => .ok (getInvoiceByNumber store n).1
    summaryResult := .ok (getAnalyticsSummary store {}).1
    vendorsResult := .ok (getVendorList store)
    modelResult := model }

/-! ## Concrete fixtures used by the evaluation theorems -/

/-- A line item with a given amount. -/
def mkLine (a : Int) : InvoiceLine :=
  { line_number := 1, line_type := "ITEM", description := "work", quantity := 1,
    unit_price := a, line_amount := a }

/-- An invoice with number `num`, date `date`, stored header amount `amt`
and a single line item of amount `la`. -/
def mkInv (num date : String) (amt la : Int) : Invoice :=
  { invoice_header :=
      { organization_code := "ORG", invoice_num := num, invoice_date := date,
        vendor_name := "BuildSmart", vendor_site_code := "S1",
        invoice_amount := amt, currency_code := "USD", payment_term := "NET30",
        invoice_type := "Standard" }
    invoice_lines := [mkLine la] }

/-- The stale invoice of the small fixture store: stored amount 5, line
total 7. -/
def staleInv : Invoice := mkInv "A-1" "2024-01-02" 5 7

/-- A two-invoice store with one stale header amount. -/
def storeW : List Invoice := [staleInv, mkInv "B-2" "2024-01-01" 3 3]

/-- Twenty-five consistent invoices with distinct numbers and dates. -/
def store25 : List Invoice :=
  (List.range 25).map
    (fun n => mkInv ("N" ++ toString n) ("2024-01-" ++ pad2 (n + 1)) 7 7)

/-- Eleven consistent invoices with distinct numbers and dates. -/
def store11 : List Invoice :=
  (List.range 11).map
    (fun n => mkInv ("N" ++ toString n) ("2024-01-" ++ pad2 (n + 1)) 7 7)

/-- A store whose single invoice is numbered INV-2023-004. -/
def storeC3 : List Invoice := [mkInv "INV-2023-004" "2023-04-01" 250 250]

/-- A chat environment whose filtered list query fails while every other
external call succeeds, probing the error handling of the orchestration. -/
def envListFails : ChatEnv :=
  { year := 2025
    listResult := fun _ => .error ()
    lookupResult := fun _ => .ok none
    summaryResult := .ok ⟨0, 0, [], []⟩
    vendorsResult := .ok []
    modelResult := fun _ => .ok "There are no matching invoices." }

/-! ## Basic lemmas about the reconciliation primitives -/

theorem inum_setAmount (inv : Invoice) (a : Int) : inum (setAmount inv a) = inum inv := rfl

theorem lines_setAmount (inv : Invoice) (a : Int) :
    (setAmount inv a).invoice_lines = inv.invoice_lines := rfl

theorem lineSum_setAmount (inv : Invoice) (a : Int) :
    lineSum (setAmount inv a) = lineSum inv := rfl

theorem amount_setAmount (inv : Invoice) (a : Int) :
    (setAmount inv a).invoice_header.invoice_amount = a := rfl

theorem inum_reconcileInv (inv : Invoice) : inum (reconcileInv inv) = inum inv := by
  unfold reconcileInv; split <;> rfl

theorem lineSum_reconcileInv (inv : Invoice) : lineSum (reconcileInv inv) = lineSum inv := by
  unfold reconcileInv; split <;> rfl

theorem amount_reconcileInv (inv : Invoice) :
    (reconcileInv inv).invoice_header.invoice_amount = lineSum inv := by
  unfold reconcileInv
  split
  · assumption
  · rfl

theorem reconcileInv_sound (inv : Invoice) :
    (reconcileInv inv).invoice_header.invoice_amount = lineSum (reconcileInv inv) := by
  rw [amount_reconcileInv, lineSum_reconcileInv]

theorem matchesQuery_setAmount (q : MongoQuery) (inv : Invoice) (a : Int) :
    matchesQuery q (setAmount inv a) = matchesQuery q inv := rfl

theorem matchesQuery_reconcileInv (q : MongoQuery) (inv : Invoice) :
    matchesQuery q (reconcileInv inv) = matchesQuery q inv := by
  unfold reconcileInv; split <;> rfl

/-! ## `findOne` / `updateOne` lemmas -/

theorem findOne_eq_of_mem_nodup {store : List Invoice} {r : Invoice}
    (h2 : (store.map inum).Nodup) (hr : r ∈ store) :
    findOne store (inum r) = some r := by
  induction store with
  | nil => cases hr
  | cons x xs ih =>
    simp only [List.map_cons, List.nodup_cons] at h2
    rcases List.mem_cons.mp hr with h | h
    · subst h
      simp [findOne, inum]
    · have hne : x.invoice_header.invoice_num ≠ inum r := by
        intro he
        have hmem : inum r ∈ xs.map inum := List.mem_map_of_mem inum h
        have he' : inum x = inum r := he
        rw [← he'] at hmem
        exact h2.1 hmem
      simp only [findOne, hne, if_false]
      exact ih h2.2 h

theorem findOne_some_num {store : List Invoice} {num : String} {r : Invoice}
    (h : findOne store num = some r) : inum r = num := by
  induction store with
  | nil => simp [findOne] at h
  | cons x xs ih =>
    by_cases hx : x.invoice_header.invoice_num = num
    · simp only [findOne, hx, if_true, Option.some.injEq] at h
      subst h; exact hx
    · simp only [findOne, hx, if_false] at h
      exact ih h

theorem findOne_some_mem {store : List Invoice} {num : String} {r : Invoice}
    (h : findOne store num = some r) : r ∈ store := by
  induction store with
  | nil => simp [findOne] at h
  | cons x xs ih =>
    by_cases hx : x.invoice_header.invoice_num = num
    · simp only [findOne, hx, if_true, Option.some.injEq] at h
      subst h; exact List.mem_cons_self x xs
    · simp only [findOne, hx, if_false] at h
      exact List.mem_cons_of_mem x (ih h)

theorem eq_of_mem_nodup_num {store : List Invoice} {a b : Invoice}
    (h2 : (store.map inum).Nodup) (ha : a ∈ store) (hb : b ∈ store)
    (hn : inum a = inum b) : a = b := by
  have := List.inj_on_of_nodup_map h2
  exact this ha hb hn

theorem map_eq_self_of_forall {l : List Invoice} {f : Invoice → Invoice}
    (h : ∀ d ∈ l, f d = d) : l.map f = l := by
  induction l with
  | nil => rfl
  | cons x xs ih =>
    simp only [List.map_cons, h x (List.mem_cons_self x xs),
      ih (fun d hd => h d (List.mem_cons_of_mem x hd))]

theorem updateOneAmount_eq_map {store : List Invoice} {num : String} (a : Int)
    (h2 : (store.map inum).Nodup) :
    updateOneAmount store num a =
      store.map (fun d => if inum d = num then setAmount d a else d) := by
  induction store with
  | nil => rfl
  | cons x xs ih =>
    simp only [List.map_cons, List.nodup_cons] at h2
    by_cases hx : x.invoice_header.invoice_num = num
    · have hx' : inum x = num := hx
      simp only [updateOneAmount, hx, if_true, List.map_cons, hx', if_true]
      congr 1
      refine (map_eq_self_of_forall fun d hd => ?_).symm
      have : inum d ≠ num := by
        intro he
        exact h2.1 ((hx'.trans he.symm) ▸ List.mem_map_of_mem inum hd)
      simp [this]
    · have hx' : ¬ inum x = num := hx
      simp only [updateOneAmount, hx, if_false, List.map_cons, hx', if_false]
      exact congrArg _ (ih h2.2)

theorem findOne_updateOneAmount_of_findOne {store : List Invoice} {num : String}
    {r : Invoice} (a : Int) (h : findOne store num = some r) :
    findOne (updateOneAmount store num a) num = some (setAmount r a) := by
  induction store with
  | nil => simp [findOne] at h
  | cons x xs ih =>
    by_cases hx : x.invoice_header.invoice_num = num
    · simp only [findOne, hx, if_true, Option.some.injEq] at h
      subst h
      simp [updateOneAmount, findOne, hx, setAmount]
    · simp only [findOne, hx, if_false] at h
      simp only [updateOneAmount, hx, if_false, findOne]
      exact ih h

/-! ## The reconciliation loop -/

theorem reconcileLoop_snd (invs : List Invoice) :
    ∀ store, (reconcileLoop store invs).2 = invs.map reconcileInv := by
  induction invs with
  | nil => intro store; rfl
  | cons r rest ih =>
    intro store
    by_cases h : r.invoice_header.invoice_amount = lineSum r
    · simp only [reconcileLoop, h, if_true, List.map_cons]
      rw [ih]
      congr 1
      simp [reconcileInv, h]
    · simp only [reconcileLoop, h, if_false, List.map_cons]
      rw [ih]
      congr 1
      simp [reconcileInv, h]

theorem reconcileLoop_fst (invs : List Invoice) (store : List Invoice)
    (h1 : ∀ r ∈ invs, r ∈ store) (h2 : (store.map inum).Nodup)
    (h3 : (invs.map inum).Nodup) :
    (reconcileLoop store invs).1 =
      store.map (fun d => if inum d ∈ invs.map inum then reconcileInv d else d) := by
  induction invs generalizing store with
  | nil =>
    simp only [List.map_nil, List.not_mem_nil, if_false, List.map_id_fun, id]
    rw [map_eq_self_of_forall (fun d _ => rfl)]
    rfl
  | cons r rest ih =>
    have hrs : r ∈ store := h1 r (List.mem_cons_self r rest)
    simp only [List.map_cons, List.nodup_cons] at h3
    have hstep : (if r.invoice_header.invoice_amount = lineSum r then store
        else updateOneAmount store (inum r) (lineSum r)) =
        store.map (fun d => if inum d = inum r then reconcileInv d else d) := by
      by_cases h : r.invoice_header.invoice_amount = lineSum r
      · rw [if_pos h]
        symm
        apply map_eq_self_of_forall
        intro d hd
        by_cases hdn : inum d = inum r
        · have hde : d = r := eq_of_mem_nodup_num h2 hd hrs hdn
          subst hde
          simp [reconcileInv, h]
        · simp [hdn]
      · rw [if_neg h]
        rw [updateOneAmount_eq_map (lineSum r) h2]
        apply List.map_congr_left
        intro d hd
        by_cases hdn : inum d = inum r
        · have hde : d = r := eq_of_mem_nodup_num h2 hd hrs hdn
          subst hde
          simp [reconcileInv, h]
        · simp [hdn]
    have hloop : (reconcileLoop store (r :: rest)).1 =
        (reconcileLoop (if r.invoice_header.invoice_amount = lineSum r then store
          else updateOneAmount store (inum r) (lineSum r)) rest).1 := by
      by_cases h : r.invoice_header.invoice_amount = lineSum r <;>
        simp [reconcileLoop, h]
    rw [hloop, hstep]
    have hnums : ((store.map
        (fun d => if inum d = inum r then reconcileInv d else d)).map inum) =
        store.map inum := by
      rw [List.map_map]
      apply List.map_congr_left
      intro d hd
      simp only [Function.comp]
      by_cases hdn : inum d = inum r
      · simp [hdn, inum_reconcileInv]
      · simp [hdn]
    have h2' : (((store.map
        (fun d => if inum d = inum r then reconcileInv d else d)).map inum)).Nodup := by
      rw [hnums]; exact h2
    have h1' : ∀ x ∈ rest,
        x ∈ store.map (fun d => if inum d = inum r then reconcileInv d else d) := by
      intro x hx
      have hxs : x ∈ store := h1 x (List.mem_cons_of_mem r hx)
      have hxn : inum x ≠ inum r := by
        intro he
        have hmem : inum x ∈ rest.map inum := List.mem_map_of_mem inum hx
        rw [he] at hmem
        exact h3.1 hmem
      have hfx : (fun d => if inum d = inum r then reconcileInv d else d) x = x := by
        simp [hxn]
      rw [← hfx]
      exact List.mem_map_of_mem _ hxs
    rw [ih _ h1' h2' h3.2]
    rw [List.map_map]
    apply List.map_congr_left
    intro d hd
    simp only [Function.comp, List.map_cons, List.mem_cons]
    by_cases hdn : inum d = inum r
    · rw [if_pos hdn]
      have hnotin : inum (reconcileInv d) ∈ rest.map inum → False := by
        rw [inum_reconcileInv, hdn]
        exact h3.1
      rw [if_neg hnotin]
      rw [if_pos (Or.inl hdn)]
    · rw [if_neg hdn]
      by_cases hdm : inum d ∈ rest.map inum
      · rw [if_pos hdm, if_pos (Or.inr hdm)]
      · rw [if_neg hdm]
        rw [if_neg (by intro hc; cases hc with
          | inl hc => exact hdn hc
          | inr hc => exact hdm hc)]


/-! ## Sorting and paging lemmas -/

theorem insertDateDesc_perm (inv : Invoice) (l : List Invoice) :
    List.Perm (insertDateDesc inv l) (inv :: l) := by
  induction l with
  | nil => exact List.Perm.refl _
  | cons x xs ih =>
    by_cases h : strLtB x.invoice_header.invoice_date inv.invoice_header.invoice_date
    · simp only [insertDateDesc, h, if_true]
      exact List.Perm.refl _
    · simp only [insertDateDesc, h, if_false]
      exact (ih.cons x).trans (List.Perm.swap inv x xs)

theorem sortByDateDesc_perm (l : List Invoice) : List.Perm (sortByDateDesc l) l := by
  induction l with
  | nil => exact List.Perm.refl _
  | cons x xs ih =>
    exact (insertDateDesc_perm x (sortByDateDesc xs)).trans (ih.cons x)

theorem pagedOf_sublist (store : List Invoice) (pred : Invoice → Bool)
    (page limit : Nat) :
    List.Sublist (pagedOf store pred page limit)
      (sortByDateDesc (matchedOf store pred)) := by
  unfold pagedOf
  by_cases h : limit = 0
  · simp only [h, if_true]
    exact List.drop_sublist _ _
  · simp only [h, if_false]
    exact (List.take_sublist _ _).trans (List.drop_sublist _ _)

theorem pagedOf_mem_store {store : List Invoice} {pred : Invoice → Bool}
    {page limit : Nat} :
    ∀ r ∈ pagedOf store pred page limit, r ∈ store := by
  intro r hr
  have h1 : r ∈ sortByDateDesc (matchedOf store pred) :=
    (pagedOf_sublist store pred page limit).subset hr
  have h2 : r ∈ matchedOf store pred :=
    (sortByDateDesc_perm (matchedOf store pred)).mem_iff.mp h1
  exact (List.mem_filter.mp h2).1

theorem pagedOf_nodup_num {store : List Invoice} {pred : Invoice → Bool}
    {page limit : Nat} (h2 : (store.map inum).Nodup) :
    ((pagedOf store pred page limit).map inum).Nodup := by
  have hmatched : ((matchedOf store pred).map inum).Nodup :=
    h2.sublist ((List.filter_sublist store).map inum)
  have hsorted : ((sortByDateDesc (matchedOf store pred)).map inum).Nodup :=
    (((sortByDateDesc_perm (matchedOf store pred)).map inum).nodup_iff).mpr hmatched
  exact hsorted.sublist ((pagedOf_sublist store pred page limit).map inum)

/-! ## List-query lemmas (`getInvoices` / `getUserInvoices` core) -/

theorem findReconcilePaged_invoices (store : List Invoice) (pred : Invoice → Bool)
    (page limit : Nat) :
    (findReconcilePaged store pred page limit).invoices =
      (pagedOf store pred page limit).map reconcileInv := by
  unfold findReconcilePaged
  exact reconcileLoop_snd _ _

theorem findReconcilePaged_total (store : List Invoice) (pred : Invoice → Bool)
    (page limit : Nat) :
    (findReconcilePaged store pred page limit).total =
      (store.filter pred).length := rfl

theorem findReconcilePaged_amounts (store : List Invoice) (pred : Invoice → Bool)
    (page limit : Nat) :
    ∀ inv ∈ (findReconcilePaged store pred page limit).invoices,
      inv.invoice_header.invoice_amount = lineSum inv := by
  intro inv hinv
  rw [findReconcilePaged_invoices] at hinv
  obtain ⟨d, _, hd⟩ := List.mem_map.mp hinv
  rw [← hd]
  exact reconcileInv_sound d

theorem findReconcilePaged_store (store : List Invoice) (pred : Invoice → Bool)
    (page limit : Nat) (h2 : (store.map inum).Nodup) :
    (findReconcilePaged store pred page limit).store =
      store.map (fun d =>
        if inum d ∈ (pagedOf store pred page limit).map inum then reconcileInv d
        else d) := by
  unfold findReconcilePaged
  exact reconcileLoop_fst _ _ (fun r hr => pagedOf_mem_store r hr) h2
    (pagedOf_nodup_num h2)

theorem reconcileMap_nums (store : List Invoice) (nums : List String) :
    ((store.map (fun d => if inum d ∈ nums then reconcileInv d else d)).map inum) =
      store.map inum := by
  rw [List.map_map]
  apply List.map_congr_left
  intro d hd
  simp only [Function.comp]
  by_cases h : inum d ∈ nums
  · simp [h, inum_reconcileInv]
  · simp [h]

theorem findReconcilePaged_persisted (store : List Invoice) (pred : Invoice → Bool)
    (page limit : Nat) (h2 : (store.map inum).Nodup) :
    ∀ inv ∈ (findReconcilePaged store pred page limit).invoices,
      findOne (findReconcilePaged store pred page limit).store (inum inv) =
        some inv := by
  intro inv hinv
  rw [findReconcilePaged_invoices] at hinv
  obtain ⟨d, hd, hde⟩ := List.mem_map.mp hinv
  have hds : d ∈ store := pagedOf_mem_store d hd
  have hmemnum : inum d ∈ (pagedOf store pred page limit).map inum :=
    List.mem_map_of_mem inum hd
  have hfinal := findReconcilePaged_store store pred page limit h2
  have hmem_final : inv ∈ (findReconcilePaged store pred page limit).store := by
    rw [hfinal]
    refine List.mem_map.mpr ⟨d, hds, ?_⟩
    show (if inum d ∈ (pagedOf store pred page limit).map inum then reconcileInv d
      else d) = inv
    rw [if_pos hmemnum, hde]
  have hnodup_final :
      (((findReconcilePaged store pred page limit).store).map inum).Nodup := by
    rw [hfinal, reconcileMap_nums]
    exact h2
  exact findOne_eq_of_mem_nodup hnodup_final hmem_final

/-! ## Single-lookup and update lemmas -/

theorem getInvoiceByNumber_spec (store : List Invoice) (num : String) :
    ∀ inv, (getInvoiceByNumber store num).1 = some inv →
      inv.invoice_header.invoice_amount = lineSum inv ∧
      findOne (getInvoiceByNumber store num).2 num = some inv := by
  intro inv hinv
  cases hf : findOne store num with
  | none => simp [getInvoiceByNumber, hf] at hinv
  | some r =>
    by_cases h : r.invoice_header.invoice_amount = lineSum r
    · simp only [getInvoiceByNumber, hf, if_pos h, Option.some.injEq] at hinv ⊢
      subst hinv
      exact ⟨h, rfl⟩
    · simp only [getInvoiceByNumber, hf, if_neg h, Option.some.injEq] at hinv ⊢
      subst hinv
      exact ⟨rfl, findOne_updateOneAmount_of_findOne (lineSum r) hf⟩

theorem getInvoiceByNumber_none (store : List Invoice) (num : String)
    (h : (getInvoiceByNumber store num).1 = none) :
    (getInvoiceByNumber store num).2 = store := by
  cases hf : findOne store num with
  | none => simp [getInvoiceByNumber, hf]
  | some r =>
    by_cases hc : r.invoice_header.invoice_amount = lineSum r
    · simp [getInvoiceByNumber, hf, if_pos hc] at h
    · simp [getInvoiceByNumber, hf, if_neg hc] at h

theorem applyHeaderUpdate_lines (inv : Invoice) (p : HeaderPatch) (t : Int) :
    (applyHeaderUpdate inv p t).invoice_lines = inv.invoice_lines := rfl

theorem applyHeaderUpdate_amount (inv : Invoice) (p : HeaderPatch) (t : Int) :
    (applyHeaderUpdate inv p t).invoice_header.invoice_amount = t := rfl

theorem lineSum_applyHeaderUpdate (inv : Invoice) (p : HeaderPatch) (t : Int) :
    lineSum (applyHeaderUpdate inv p t) = lineSum inv := rfl

theorem findOne_updateFirstByNum {store : List Invoice} {num : String} {r : Invoice}
    (f : Invoice → Invoice) (h : findOne store num = some r)
    (hf : (f r).invoice_header.invoice_num = r.invoice_header.invoice_num) :
    findOne (updateFirstByNum store num f) num = some (f r) := by
  induction store with
  | nil => simp [findOne] at h
  | cons x xs ih =>
    by_cases hx : x.invoice_header.invoice_num = num
    · simp only [findOne, hx, if_true, Option.some.injEq] at h
      subst h
      simp [updateFirstByNum, findOne, hx, hf.trans hx]
    · simp only [findOne, hx, if_false] at h
      simp only [updateFirstByNum, hx, if_false, findOne]
      exact ih h

theorem updateInvoiceHeader_none (store : List Invoice) (num : String)
    (p : HeaderPatch) (h : (updateInvoiceHeader store num p).1 = none) :
    (updateInvoiceHeader store num p).2 = store ∧ findOne store num = none := by
  cases hf : findOne store num with
  | none => simp [updateInvoiceHeader, hf]
  | some r => simp [updateInvoiceHeader, hf] at h

theorem updateInvoiceHeader_spec (store : List Invoice) (num : String)
    (p : HeaderPatch) :
    ∀ inv, (updateInvoiceHeader store num p).1 = some inv →
      inv.invoice_header.invoice_amount = lineSum inv ∧
      findOne (updateInvoiceHeader store num p).2 num = some inv := by
  intro inv hinv
  cases hf : findOne store num with
  | none => simp [updateInvoiceHeader, hf] at hinv
  | some r =>
    simp only [updateInvoiceHeader, hf, Option.some.injEq] at hinv ⊢
    subst hinv
    refine ⟨rfl, ?_⟩
    exact findOne_updateFirstByNum _ hf rfl

theorem updateInvoiceHeader_ignores_amount (store : List Invoice) (num : String)
    (p : HeaderPatch) :
    updateInvoiceHeader store num p =
      updateInvoiceHeader store num { p with invoice_amount := none } := by
  cases hf : findOne store num with
  | none => simp [updateInvoiceHeader, hf]
  | some r => simp [updateInvoiceHeader, hf, applyHeaderUpdate]

/-! ## Analytics lemmas -/

theorem filter_map_comm (l : List Invoice) (f : Invoice → Invoice)
    (p : Invoice → Bool) (h : ∀ d ∈ l, p (f d) = p d) :
    (l.map f).filter p = (l.filter p).map f := by
  induction l with
  | nil => rfl
  | cons x xs ih =>
    simp only [List.map_cons, List.filter_cons]
    rw [h x (List.mem_cons_self x xs)]
    by_cases hx : p x
    · simp only [hx, if_true, List.map_cons]
      rw [ih (fun d hd => h d (List.mem_cons_of_mem x hd))]
    · simp only [hx, if_false]
      exact ih (fun d hd => h d (List.mem_cons_of_mem x hd))

theorem analytics_reconciled_filter (store : List Invoice) (pred : Invoice → Bool)
    (h2 : (store.map inum).Nodup)
    (hpred : ∀ d, pred (reconcileInv d) = pred d) :
    ((reconcileLoop store (store.filter pred)).1).filter pred =
      (store.filter pred).map reconcileInv := by
  have h3 : ((store.filter pred).map inum).Nodup :=
    h2.sublist ((List.filter_sublist store).map inum)
  have hchar := reconcileLoop_fst (store.filter pred) store
    (fun r hr => (List.mem_filter.mp hr).1) h2 h3
  rw [hchar]
  have hpg : ∀ d ∈ store,
      pred (if inum d ∈ (store.filter pred).map inum then reconcileInv d else d) =
      pred d := by
    intro d hd
    by_cases hm : inum d ∈ (store.filter pred).map inum
    · rw [if_pos hm, hpred]
    · rw [if_neg hm]
  rw [filter_map_comm store _ pred hpg]
  apply List.map_congr_left
  intro d hd
  have hm : inum d ∈ (store.filter pred).map inum := List.mem_map_of_mem inum hd
  rw [if_pos hm]

/-! ## Claim theorems -/

set_option maxRecDepth 10000

/-- Claim C1: every invoice returned by a read operation (single lookup by
invoice number, paginated list, user-scoped list) or by an explicit header
update satisfies `invoice_header.invoice_amount = lineSum` — even when the
stored header amount differed beforehand — and the returned invoice is
exactly what is persisted in storage under its invoice number after the
call (the corrected value is written back when it differed).  Stated under
the data-model invariant that invoice numbers are unique in the
collection. -/
theorem c1_read_write_reconciliation (store : List Invoice) (page limit : Nat)
    (f : Filters) (uid num : String) (p : HeaderPatch)
    (h2 : (store.map inum).Nodup) :
    (∀ inv ∈ (getInvoices store page limit f).invoices,
       inv.invoice_header.invoice_amount = lineSum inv ∧
       findOne (getInvoices store page limit f).store (inum inv) = some inv) ∧
    (∀ inv ∈ (getUserInvoices store uid page limit f).invoices,
       inv.invoice_header.invoice_amount = lineSum inv ∧
       findOne (getUserInvoices store uid page limit f).store (inum inv) = some inv) ∧
    (∀ inv, (getInvoiceByNumber store num).1 = some inv →
       inv.invoice_header.invoice_amount = lineSum inv ∧
       findOne (getInvoiceByNumber store num).2 num = some inv) ∧
    (∀ inv, (updateInvoiceHeader store num p).1 = some inv →
       inv.invoice_header.invoice_amount = lineSum inv ∧
       findOne (updateInvoiceHeader store num p).2 num = some inv) := by
  refine ⟨?_, ?_, getInvoiceByNumber_spec store num,
    updateInvoiceHeader_spec store num p⟩
  · intro inv hinv
    exact ⟨findReconcilePaged_amounts _ _ _ _ inv hinv,
      findReconcilePaged_persisted _ _ _ _ h2 inv hinv⟩
  · intro inv hinv
    exact ⟨findReconcilePaged_amounts _ _ _ _ inv hinv,
      findReconcilePaged_persisted _ _ _ _ h2 inv hinv⟩

/-- Witness for C1: on the concrete store with a stale invoice (stored
amount 5, line total 7) the hypothesis holds and the returned page is
reconciled and persisted. -/
theorem c1_witness :
    ((storeW.map inum).Nodup) ∧
    (∀ inv ∈ (getInvoices storeW 1 10 {}).invoices,
       inv.invoice_header.invoice_amount = lineSum inv ∧
       findOne (getInvoices storeW 1 10 {}).store (inum inv) = some inv) :=
  ⟨by decide,
   (c1_read_write_reconciliation storeW 1 10 {} "u" "A-1" {} (by decide)).1⟩

/-- Claim C2: for every filter, the analytics summary total amount equals
the sum of the line-derived (reconciled) header amounts over exactly the
invoices matched by that filter, and the invoice count is the size of that
same matched set — the reconciliation pass over the filtered set completes
before the aggregates are computed.  Stated under the unique invoice
number invariant. -/
theorem c2_analytics_total (store : List Invoice) (f : Filters)
    (h2 : (store.map inum).Nodup) :
    (getAnalyticsSummary store f).1.total_amount =
      ((store.filter (matchesQuery (buildAnalyticsQuery f))).map lineSum).sum ∧
    (getAnalyticsSummary store f).1.total_invoices =
      (store.filter (matchesQuery (buildAnalyticsQuery f))).length := by
  have hfil := analytics_reconciled_filter store
    (matchesQuery (buildAnalyticsQuery f)) h2
    (fun d => matchesQuery_reconcileInv _ d)
  constructor
  · show ((((reconcileLoop store
        (store.filter (matchesQuery (buildAnalyticsQuery f)))).1).filter
        (matchesQuery (buildAnalyticsQuery f))).map
        (fun i => i.invoice_header.invoice_amount)).sum = _
    rw [hfil, List.map_map]
    congr 1
    apply List.map_congr_left
    intro d hd
    simp only [Function.comp]
    exact amount_reconcileInv d
  · show (((reconcileLoop store
        (store.filter (matchesQuery (buildAnalyticsQuery f)))).1).filter
        (matchesQuery (buildAnalyticsQuery f))).length = _
    rw [hfil, List.length_map]

/-- Witness for C2: on the stale fixture store, the summary total is the
line-derived total 7 + 3 = 10 even though the stored amounts sum to 8. -/
theorem c2_witness :
    ((storeW.map inum).Nodup) ∧
    (getAnalyticsSummary storeW {}).1.total_amount =
      ((storeW.filter (matchesQuery (buildAnalyticsQuery {}))).map lineSum).sum :=
  ⟨by decide, (c2_analytics_total storeW {} (by decide)).1⟩

/-- Claim C5: a header update of an existing invoice persists and returns
an invoice whose header amount is the line total of the current
(unchanged) line items, regardless of any caller-supplied amount field;
for an unknown invoice number the update returns none (mapped to 404) and
the storage state is unchanged. -/
theorem c5_header_update (store : List Invoice) (num : String) (p : HeaderPatch) :
    ((updateInvoiceHeader store num p).1 = none →
       (updateInvoiceHeader store num p).2 = store ∧ findOne store num = none) ∧
    (∀ cur, findOne store num = some cur →
       (updateInvoiceHeader store num p).1 =
         some (applyHeaderUpdate cur p (lineSum cur)) ∧
       (applyHeaderUpdate cur p (lineSum cur)).invoice_header.invoice_amount =
         lineSum cur ∧
       (applyHeaderUpdate cur p (lineSum cur)).invoice_lines = cur.invoice_lines ∧
       findOne (updateInvoiceHeader store num p).2 num =
         some (applyHeaderUpdate cur p (lineSum cur))) ∧
    updateInvoiceHeader store num p =
      updateInvoiceHeader store num { p with invoice_amount := none } ∧
    ((updateInvoiceHeader store num p).1 = none →
       routePutInvoice store num p = (.notFound, store)) := by
  refine ⟨updateInvoiceHeader_none store num p, ?_, 
    updateInvoiceHeader_ignores_amount store num p, ?_⟩
  · intro cur hcur
    have h1 : (updateInvoiceHeader store num p).1 =
        some (applyHeaderUpdate cur p (lineSum cur)) := by
      simp [updateInvoiceHeader, hcur]
    refine ⟨h1, rfl, rfl, ?_⟩
    exact (updateInvoiceHeader_spec store num p _ h1).2
  · intro hnone
    have h := updateInvoiceHeader_none store num p hnone
    unfold routePutInvoice
    have hpair : updateInvoiceHeader store num p = (none, store) := by
      have := Prod.mk.eta (p := updateInvoiceHeader store num p)
      rw [← this, hnone, h.1]
    rw [hpair]

/-- Witness for C5: updating the stale fixture invoice with a patch that
tries to set the amount to 999 still persists the line total 7. -/
theorem c5_witness :
    (findOne storeW "A-1" = some staleInv) ∧
    ((updateInvoiceHeader storeW "A-1" { invoice_amount := some 999 }).1 =
       some (applyHeaderUpdate staleInv { invoice_amount := some 999 }
         (lineSum staleInv)) ∧
     (applyHeaderUpdate staleInv { invoice_amount := some 999 }
       (lineSum staleInv)).invoice_header.invoice_amount = lineSum staleInv ∧
     (applyHeaderUpdate staleInv { invoice_amount := some 999 }
       (lineSum staleInv)).invoice_lines = staleInv.invoice_lines ∧
     findOne (updateInvoiceHeader storeW "A-1"
       { invoice_amount := some 999 }).2 "A-1" =
       some (applyHeaderUpdate staleInv { invoice_amount := some 999 }
         (lineSum staleInv))) :=
  ⟨by decide,
   (c5_header_update storeW "A-1" { invoice_amount := some 999 }).2.1
     staleInv (by decide)⟩

/-- Claim C10: `createInvoice` stores and returns an invoice whose header
amount is the sum of its line amounts, silently overriding any
caller-supplied amount; `createdAt` and `updatedAt` are set to the current
time exactly when absent; and the user-creation route produces an invoice
satisfying the sum invariant from birth. -/
theorem c10_create_invoice (store : List Invoice) (inv body : Invoice)
    (uid : String) (now : Nat) :
    ((createInvoice store inv now).1.invoice_header.invoice_amount =
       lineSum (createInvoice store inv now).1 ∧
     (createInvoice store inv now).1.invoice_lines = inv.invoice_lines ∧
     lineSum (createInvoice store inv now).1 = lineSum inv) ∧
    (createInvoice store inv now).2 = store ++ [(createInvoice store inv now).1] ∧
    (inv.createdAt = none → (createInvoice store inv now).1.createdAt = some now) ∧
    (∀ t, inv.createdAt = some t →
       (createInvoice store inv now).1.createdAt = some t) ∧
    (inv.updatedAt = none → (createInvoice store inv now).1.updatedAt = some now) ∧
    (∀ t, inv.updatedAt = some t →
       (createInvoice store inv now).1.updatedAt = some t) ∧
    ((routeCreateUserInvoice store body uid now).1.invoice_header.invoice_amount =
       lineSum (routeCreateUserInvoice store body uid now).1 ∧
     (routeCreateUserInvoice store body uid now).1.invoice_lines =
       body.invoice_lines) := by
  refine ⟨⟨rfl, rfl, rfl⟩, rfl, ?_, ?_, ?_, ?_, rfl, rfl⟩
  · intro h
    simp [createInvoice, setAmount, h]
  · intro t h
    simp [createInvoice, setAmount, h]
  · intro h
    simp [createInvoice, setAmount, h]
  · intro t h
    simp [createInvoice, setAmount, h]

/-- Witness for C10: creating the stale fixture invoice (caller amount 5,
line total 7, no timestamps) stores amount 7 and stamps both timestamps. -/
theorem c10_witness :
    (staleInv.createdAt = none) ∧
    ((createInvoice [] staleInv 1700000000).1.invoice_header.invoice_amount =
       lineSum (createInvoice [] staleInv 1700000000).1 ∧
     (createInvoice [] staleInv 1700000000).1.invoice_lines =
       staleInv.invoice_lines ∧
     lineSum (createInvoice [] staleInv 1700000000).1 = lineSum staleInv) ∧
    (createInvoice [] staleInv 1700000000).1.createdAt = some 1700000000 :=
  ⟨rfl,
   (c10_create_invoice [] staleInv staleInv "u" 1700000000).1,
   (c10_create_invoice [] staleInv staleInv "u" 1700000000).2.2.1 rfl⟩

/-- Claim C3 (code-bug evidence): on the input "Find invoice INV-2023-004"
the intent extractor captures only "INV-2023" — the capture group
`(\w+-?\d+)` admits at most one hyphen, so the word run "INV", the single
dash and the digit run "2023" end the match before "-004".  The
short-circuit lookup therefore queries invoice number "INV-2023" and
returns no invoice even on a store whose only invoice is INV-2023-004,
contrary to the specified behavior. -/
theorem c3_extraction_truncates :
    extractInvoiceNum "Find invoice INV-2023-004" = some "INV-2023" ∧
    queryInvoicesE (pureChatEnv storeC3 2025 (fun _ => .ok "ok"))
      "Find invoice INV-2023-004" = .ok [] ∧
    (storeC3.filter (fun i => inum i = "INV-2023-004")).length = 1 := by
  refine ⟨by decide, by rfl, by decide⟩

/-- Claim C4 counterexample: on "Show me BuildSmart invoices from January"
(current year 2025) the extractor does not produce vendor BuildSmart with
the January date range. -/
theorem c4_counterexample :
    ¬ ((chatFilters "Show me BuildSmart invoices from January" 2025).vendor =
         some "BuildSmart" ∧
       (chatFilters "Show me BuildSmart invoices from January" 2025).startDate =
         some "2025-01-01" ∧
       (chatFilters "Show me BuildSmart invoices from January" 2025).endDate =
         some "2025-01-31") := by decide

/-- Claim C4 (amended): on "Show me BuildSmart invoices from January" the
extractor yields vendor "January" — the `/from\s+(\w+)/i` pattern captures
the word after "from" — and no date bounds at all, because month
extraction requires the form "in <month>", which this input lacks; no type
and no invoice number are extracted either. -/
theorem c4_amended (year : Nat) :
    chatFilters "Show me BuildSmart invoices from January" year =
      { vendor := some "January" } := rfl

/-- Claim C6: a date filter with only one bound present is ignored
entirely by the query builders of the list, user list and analytics
queries (the built query carries no date constraint and equals the query
built with no dates at all), and empty-string vendor, currency and
invoiceType values are treated as absent filters. -/
theorem c6_filter_guards (f : Filters) :
    ((f.startDate = none ∨ f.endDate = none) →
      (buildInvoicesQuery f).dateRange = none ∧
      (buildUserInvoicesQuery f).dateRange = none ∧
      (buildAnalyticsQuery f).dateRange = none ∧
      buildInvoicesQuery f =
        buildInvoicesQuery { f with startDate := none, endDate := none } ∧
      buildUserInvoicesQuery f =
        buildUserInvoicesQuery { f with startDate := none, endDate := none } ∧
      buildAnalyticsQuery f =
        buildAnalyticsQuery { f with startDate := none, endDate := none }) ∧
    (buildInvoicesQuery { f with vendor := some "" } =
       buildInvoicesQuery { f with vendor := none } ∧
     buildInvoicesQuery { f with currency := some "" } =
       buildInvoicesQuery { f with currency := none } ∧
     buildInvoicesQuery { f with invoiceType := some "" } =
       buildInvoicesQuery { f with invoiceType := none } ∧
     buildUserInvoicesQuery { f with vendor := some "" } =
       buildUserInvoicesQuery { f with vendor := none } ∧
     buildUserInvoicesQuery { f with currency := some "" } =
       buildUserInvoicesQuery { f with currency := none } ∧
     buildUserInvoicesQuery { f with invoiceType := some "" } =
       buildUserInvoicesQuery { f with invoiceType := none } ∧
     buildAnalyticsQuery { f with vendor := some "" } =
       buildAnalyticsQuery { f with vendor := none } ∧
     buildAnalyticsQuery { f with currency := some "" } =
       buildAnalyticsQuery { f with currency := none } ∧
     buildAnalyticsQuery { f with invoiceType := some "" } =
       buildAnalyticsQuery { f with invoiceType := none }) := by
  constructor
  · intro h
    rcases h with h | h <;>
      [rcases he : f.endDate with _ | e; rcases hs : f.startDate with _ | s] <;>
      simp_all [buildInvoicesQuery, buildUserInvoicesQuery, buildAnalyticsQuery,
        jsPresent]
  · refine ⟨?_, ?_, ?_, ?_, ?_, ?_, ?_, ?_, ?_⟩ <;>
      simp [buildInvoicesQuery, buildUserInvoicesQuery, buildAnalyticsQuery,
        jsPresent]

/-- Witness for C6: a filter with only a start date builds the same query
as the date-free filter, with no date constraint. -/
theorem c6_witness :
    (({ startDate := some "2024-01-01" } : Filters).endDate = none) ∧
    (buildInvoicesQuery { startDate := some "2024-01-01" }).dateRange = none :=
  ⟨rfl,
   ((c6_filter_guards { startDate := some "2024-01-01" }).1 (Or.inr rfl)).1⟩

/-- Claim C7 counterexample: an HTTP list request with limit=0 does not
return everything — `parseInt(limit) || 10` coerces the falsy 0 to the
default 10, so over a store of 11 matching invoices only 10 are
returned. -/
theorem c7_counterexample :
    (store11.filter (matchesQuery (buildInvoicesQuery {}))).length = 11 ∧
    (routeGetInvoices store11 (some 1) (some 0) {}).invoices.length = 10 ∧
    (routeGetInvoices store11 (some 1) (some 0) {}).pagination.limit = 10 := by
  refine ⟨by decide, by decide, by decide⟩

/-- Claim C7 (amended): at the storage layer a query with limit 0 applies
no pagination and returns every matching invoice (reconciled), with the
returned count equal to the matching total — this is how the export and
chat paths call the store (page 1, limit 0) — but at the HTTP layer a
limit=0 query parameter is indistinguishable from limit=10, because 0 is
falsy in `parseInt(...) || 10`. -/
theorem c7_storage_limit_zero (store : List Invoice) (page : Nat) (f : Filters)
    (pp : Option Nat) :
    (getInvoices store page 0 f).invoices =
      (sortByDateDesc (store.filter (matchesQuery (buildInvoicesQuery f)))).map
        reconcileInv ∧
    (getInvoices store page 0 f).invoices.length = (getInvoices store page 0 f).total ∧
    exportInvoices store f = getInvoices store 1 0 f ∧
    routeGetInvoices store pp (some 0) f = routeGetInvoices store pp (some 10) f := by
  have hpaged : pagedOf store (matchesQuery (buildInvoicesQuery f)) page 0 =
      sortByDateDesc (store.filter (matchesQuery (buildInvoicesQuery f))) := by
    unfold pagedOf
    simp [matchedOf]
  refine ⟨?_, ?_, rfl, rfl⟩
  · show (findReconcilePaged store (matchesQuery (buildInvoicesQuery f)) page 0).invoices = _
    rw [findReconcilePaged_invoices, hpaged]
  · show (findReconcilePaged store (matchesQuery (buildInvoicesQuery f)) page 0).invoices.length =
      (findReconcilePaged store (matchesQuery (buildInvoicesQuery f)) page 0).total
    rw [findReconcilePaged_invoices, hpaged, findReconcilePaged_total,
      List.length_map]
    exact (sortByDateDesc_perm _).length_eq

/-- Claim C8: with limit 10 and page 2 over a filter matching exactly 25
invoices, the route returns the 11th through 20th matching invoices in the
query sort order (skip = (page-1)*limit, reconciled) and reports total 25
with totalPages 3. -/
theorem c8_pagination (store : List Invoice) (f : Filters)
    (h : (store.filter (matchesQuery (buildInvoicesQuery f))).length = 25) :
    (routeGetInvoices store (some 2) (some 10) f).invoices =
      (((sortByDateDesc (store.filter
          (matchesQuery (buildInvoicesQuery f)))).drop 10).take 10).map
        reconcileInv ∧
    (routeGetInvoices store (some 2) (some 10) f).invoices.length = 10 ∧
    (routeGetInvoices store (some 2) (some 10) f).pagination =
      { total := 25, page := 2, limit := 10, totalPages := 3 } := by
  have hsorted : (sortByDateDesc (store.filter
      (matchesQuery (buildInvoicesQuery f)))).length = 25 := by
    rw [(sortByDateDesc_perm _).length_eq]
    exact h
  have hpaged : pagedOf store (matchesQuery (buildInvoicesQuery f)) 2 10 =
      ((sortByDateDesc (store.filter
        (matchesQuery (buildInvoicesQuery f)))).drop 10).take 10 := by
    unfold pagedOf
    simp [matchedOf]
  have hinv : (routeGetInvoices store (some 2) (some 10) f).invoices =
      (((sortByDateDesc (store.filter
          (matchesQuery (buildInvoicesQuery f)))).drop 10).take 10).map
        reconcileInv := by
    show (findReconcilePaged store (matchesQuery (buildInvoicesQuery f)) 2 10).invoices = _
    rw [findReconcilePaged_invoices, hpaged]
  refine ⟨hinv, ?_, ?_⟩
  · rw [hinv, List.length_map, List.length_take, List.length_drop, hsorted]
    decide
  · show (⟨(findReconcilePaged store (matchesQuery (buildInvoicesQuery f)) 2 10).total,
      2, 10, ceilDiv (findReconcilePaged store
        (matchesQuery (buildInvoicesQuery f)) 2 10).total 10⟩ : Pagination) = _
    rw [findReconcilePaged_total]
    show (⟨(store.filter (matchesQuery (buildInvoicesQuery f))).length, 2, 10,
      ceilDiv (store.filter (matchesQuery (buildInvoicesQuery f))).length 10⟩ :
        Pagination) = _
    rw [h]
    rfl

/-- Witness for C8: the 25-invoice fixture matches the empty filter
exactly 25 times and the route reports the specified pagination. -/
theorem c8_witness :
    (store25.filter (matchesQuery (buildInvoicesQuery {}))).length = 25 ∧
    (routeGetInvoices store25 (some 2) (some 10) {}).pagination =
      { total := 25, page := 2, limit := 10, totalPages := 3 } :=
  ⟨by decide, (c8_pagination store25 {} (by decide)).2.2⟩

/-- Claim C9 counterexample: a storage failure of the filtered list query
does not produce the apology — `queryInvoices` swallows it into an empty
list and the orchestration proceeds to the model call, returning the model
answer with an (empty) invoice list attached. -/
theorem c9_counterexample :
    processUserMessage envListFails "hello" =
      ⟨"There are no matching invoices.", some []⟩ ∧
    "There are no matching invoices." ≠ apologyAnswer := by
  refine ⟨by decide, by decide⟩

/-- Claim C9 (amended): an error propagated out of the invoice query
(only the direct invoice-number lookup propagates) or an error of the
model call yields the generic apology with no invoices attached; a storage
error of the filtered list query is instead swallowed inside
`queryInvoices`, which returns the empty list so that processing
continues; on success the response carries the model answer plus the full
unclipped list of matched invoices, while the prompt context depends only
on the first five of them (and their count). -/
theorem c9_error_handling (env : ChatEnv) (msg : String) :
    (∀ e, queryInvoicesE env msg = .error e →
       processUserMessage env msg = ⟨apologyAnswer, none⟩) ∧
    (∀ invs, queryInvoicesE env msg = .ok invs →
       (∀ e, env.modelResult (promptOf env invs msg) = .error e →
          processUserMessage env msg = ⟨apologyAnswer, none⟩) ∧
       (∀ ans, env.modelResult (promptOf env invs msg) = .ok ans →
          processUserMessage env msg = ⟨ans, some invs⟩)) ∧
    (extractInvoiceNum msg = none →
       ∀ e, env.listResult (chatFilters msg env.year) = .error e →
         queryInvoicesE env msg = .ok []) ∧
    (∀ invs invs' : List Invoice, invs.take 5 = invs'.take 5 →
       invs.length = invs'.length →
       invoiceContextOf invs = invoiceContextOf invs') := by
  refine ⟨?_, ?_, ?_, ?_⟩
  · intro e he
    unfold processUserMessage
    rw [he]
  · intro invs hq
    constructor
    · intro e he
      simp only [processUserMessage, hq, he]
    · intro ans hok
      simp only [processUserMessage, hq, hok]
  · intro hnone e he
    simp only [queryInvoicesE, hnone, he]
  · intro invs invs' h5 hlen
    unfold invoiceContextOf
    rw [h5, hlen]

/-- Witness for C9 (amended): with the failing-list environment and a
message carrying no invoice number, the list error is swallowed into the
empty result. -/
theorem c9_witness :
    (extractInvoiceNum "hello" = none) ∧
    (envListFails.listResult (chatFilters "hello" envListFails.year) =
      .error ()) ∧
    queryInvoicesE envListFails "hello" = .ok [] :=
  ⟨by decide, rfl, (c9_error_handling envListFails "hello").2.2.1 (by decide) () rfl⟩
